import Mathlib

/-!
Verification development for the sandlersteam steam-table library
(`src/sandlersteam/state.py`, `src/sandlersteam/unsatd.py`).

Shallow embedding conventions:
* Numeric property values are rationals (`ℚ`); the Python code works in IEEE
  doubles, and every arithmetic step used here (piecewise-linear
  interpolation, lever rule) is exact in `ℚ`.
* `RVal := Option ℚ` models an IEEE double that may be NaN: `none` is NaN and
  every comparison involving `none` is false, as in IEEE-754.  All arithmetic
  on `RVal` propagates NaN.
* A state slot (`Slot := Option RVal`) distinguishes the Python value `None`
  (slot `none`, attribute unset) from a stored float, which itself may be NaN
  (`some none`).
* Values are stored as magnitudes in the table's canonical units (degC, MPa,
  m3/kg, kJ/kg, kJ/kg-K).  `pint` unit wrapping in `State.__setattr__` maps a
  float to a Quantity with the same magnitude and `.to(default)` is the
  identity on already-canonical values, so unit bookkeeping drops out of the
  magnitude-level model.
* Python exceptions are modelled with `Except String`; the message strings
  are abbreviations of the source's f-strings (formatting elided).
* The saturated steam table module `satd.py` is not part of the sources
  available here (only its callers are), so `SaturatedSteamTables` below is
  modelled from the spec; this is flagged in its doc comment.
-/

/-- An IEEE double: `none` is NaN, `some q` a (finite) value. -/
abbrev RVal : Type := Option ℚ

/-- IEEE `<` : any comparison with NaN is false. -/
def rvLT : RVal → RVal → Bool
  | some a, some b => decide (a < b)
  | _, _ => false

/-- IEEE `<=` : any comparison with NaN is false. -/
def rvLE : RVal → RVal → Bool
  | some a, some b => decide (a ≤ b)
  | _, _ => false

/-- IEEE `==` against a finite rational: NaN equals nothing. -/
def rvEqQ : RVal → ℚ → Bool
  | some a, q => decide (a = q)
  | none, _ => false

/-- NaN-propagating addition. -/
def rvAdd : RVal → RVal → RVal
  | some a, some b => some (a + b)
  | _, _ => none

/-- NaN-propagating subtraction. -/
def rvSub : RVal → RVal → RVal
  | some a, some b => some (a - b)
  | _, _ => none

/-- NaN-propagating multiplication (note: in IEEE, NaN * 0 = NaN). -/
def rvMul : RVal → RVal → RVal
  | some a, some b => some (a * b)
  | _, _ => none

/-- NaN-propagating division.  The sources only divide by differences of
distinct grid abscissae, so the `ℚ` convention `q / 0 = 0` is never hit on
the paths the theorems below speak about. -/
def rvDiv : RVal → RVal → RVal
  | some a, some b => some (a / b)
  | _, _ => none

/-- NaN-propagating negation. -/
def rvNeg : RVal → RVal
  | some a => some (-a)
  | none => none

/-- Membership of a float in a list of tabulated values, by IEEE `==`
(Python's `in`): NaN is never a member. -/
def rvMem (x : RVal) (l : List ℚ) : Bool :=
  match x with
  | some q => l.contains q
  | none => false

/-- One linear segment of `np.interp`, following numpy's `compiled_interp`:
evaluate the slope formula anchored at the left node; if that gives NaN try
the right node; if both give NaN and the two ordinates are (IEEE-) equal
return that ordinate, else NaN. -/
def segEval (x x0 x1 y0 y1 : RVal) : RVal :=
  let slope := rvDiv (rvSub y1 y0) (rvSub x1 x0)
  match rvAdd (rvMul slope (rvSub x x0)) y0 with
  | some v => some v
  | none =>
    match rvAdd (rvMul slope (rvSub x x1)) y1 with
    | some v => some v
    | none =>
      match y0, y1 with
      | some a, some b => if a = b then some a else none
      | _, _ => none

/-- The in-range part of `np.interp` over sample points `pts` (pairs of
abscissa and ordinate), assuming the query is at or beyond the first
abscissa.  Walks the segments left to right; on sorted abscissae this agrees
with numpy's binary search. -/
def interpWalk (x : RVal) : List (RVal × RVal) → RVal
  | [] => none
  | (x0, y0) :: rest =>
    match rest with
    | [] => y0
    | (x1, y1) :: _ =>
      if rvLT x1 x then interpWalk x rest
      else segEval x x0 x1 y0 y1

/-- `np.interp(x, xp, fp, left, right)` on nonempty `pts = zip xp fp`.
`left`/`right` of `Option.none` mean the numpy default (clamp to the end
ordinate); `some none` models passing `left=np.nan` / `right=np.nan`. -/
def npInterp (x : RVal) (pts : List (RVal × RVal)) (left right : Option RVal) : RVal :=
  match pts with
  | [] => none
  | (x0, y0) :: _ =>
    let xlast := (pts.getLastD (x0, y0)).1
    let ylast := (pts.getLastD (x0, y0)).2
    if rvLT x x0 then left.getD y0
    else if rvLT xlast x then right.getD ylast
    else interpWalk x pts

/-- `np.interp` including numpy's error on an empty array of sample
points. -/
def npInterpE (x : RVal) (pts : List (RVal × RVal)) (left right : Option RVal) :
    Except String RVal :=
  if pts.isEmpty then .error "array of sample points is empty"
  else .ok (npInterp x pts left right)

/-- A Python value that is either a list/1-D array or a bare scalar, as can
end up in the `LLdat` dictionary of `ThThBilinear` (where list slots are
overwritten with scalars). -/
inductive PyVal : Type
  | pylist (l : List RVal)
  | pyscalar (v : RVal)
deriving DecidableEq, Repr

/-- `np.interp` as called on `PyVal` arguments: numpy rejects a 0-d (scalar)
sample array and mismatched lengths. -/
def npInterpPy (x : RVal) (xp fp : PyVal) (left right : Option RVal) :
    Except String RVal :=
  match xp, fp with
  | .pylist xs, .pylist fs =>
    if xs.isEmpty then .error "array of sample points is empty"
    else if xs.length ≠ fs.length then .error "fp and xp are not of the same length"
    else .ok (npInterp x (xs.zip fs) (left) (right))
  | _, _ => .error "object of too small depth for desired array"

/-- First pair of adjacent entries `(a, b)` of the list with `a < y < b`
(IEEE comparisons), as the `for ... else` bracket searches in
`TPBilinear`/`PThBilinear` do over the sorted unique pressures. -/
def findBracket (y : RVal) : List ℚ → Option (ℚ × ℚ)
  | [] => none
  | a :: rest =>
    match rest with
    | [] => none
    | b :: _ =>
      if rvLT (some a) y && rvLT y (some b) then some (a, b)
      else findBracket y rest

/-- Insert into a sorted duplicate-free list of rationals. -/
def insertSorted (x : ℚ) : List ℚ → List ℚ
  | [] => [x]
  | y :: ys =>
    if x = y then y :: ys
    else if x < y then x :: y :: ys
    else y :: insertSorted x ys

/-- `np.sort(np.array(list(set(l))))`: the sorted distinct values. -/
def sortedUniq (l : List ℚ) : List ℚ := l.foldr insertSorted []

/-- `Y.min() < yi < Y.max()` for a pandas column `Y` (false on an empty
column, whose min/max are NaN). -/
def strictlyInside (yi : RVal) (Y : List ℚ) : Bool :=
  match Y with
  | [] => false
  | a :: as' => rvLT (some (as'.foldl min a)) yi && rvLT yi (some (as'.foldl max a))

/-- `l[i]` with Python's IndexError. -/
def pyIndex (l : List α) (i : Nat) (msg : String) : Except String α :=
  match l.get? i with
  | some a => .ok a
  | none => .error msg

/-! ## The single-phase (unsaturated) steam tables, from `unsatd.py` -/

/-- A column of the single-phase grids (the parsed data frame has exactly
the columns T, P, v, u, h, s). -/
inductive Col : Type
  | T | P | v | u | h | s
deriving DecidableEq, Repr

/-- One row of a single-phase grid: a temperature entry of one pressure
block. -/
structure Row : Type where
  T : ℚ
  P : ℚ
  v : ℚ
  u : ℚ
  h : ℚ
  s : ℚ
deriving DecidableEq, Repr

def Row.get (r : Row) : Col → ℚ
  | .T => r.T
  | .P => r.P
  | .v => r.v
  | .u => r.u
  | .h => r.h
  | .s => r.s

/-- The column list `self.data.columns`. -/
def dofList : List Col := [.T, .P, .v, .u, .h, .s]

/-- `UnsaturatedSteamTable.data`: the concatenated pressure blocks, each
block an ascending-temperature run of rows at a fixed pressure. -/
structure UnsaturatedSteamTable : Type where
  data : List Row
deriving DecidableEq, Repr

/-- `self.uniqs[d]`: sorted distinct values of a column. -/
def UnsaturatedSteamTable.uniqs (tbl : UnsaturatedSteamTable) (d : Col) : List ℚ :=
  sortedUniq (tbl.data.map (fun r => r.get d))

/-- A property dictionary returned by the interpolators: association list in
Python dict insertion order. -/
abbrev PropDict : Type := List (Col × RVal)

/-- Dict update `d[k] = v`: overwrite in place if the key exists (keeping
its position, as Python dicts do), else append. -/
def dictSet (d : PropDict) (k : Col) (v : RVal) : PropDict :=
  if d.any (fun p => p.1 = k) then
    d.map (fun p => if p.1 = k then (k, v) else p)
  else d ++ [(k, v)]

/-- Stable insertion sort of rows by ascending temperature
(`sort_values(by='T')`). -/
def insertRowByT (r : Row) : List Row → List Row
  | [] => [r]
  | q :: qs => if r.T ≤ q.T then r :: q :: qs else q :: insertRowByT r qs

def sortByT (l : List Row) : List Row := l.foldr insertRowByT []

/-- `UnsaturatedSteamTable.TPBilinear(specdict)` with `specdict = T: xi, P: yi`.
Bilinear interpolation given T and P. -/
def UnsaturatedSteamTable.TPBilinear (tbl : UnsaturatedSteamTable) (xi yi : RVal) :
    Except String PropDict := do
  let df := tbl.data
  let base : PropDict := [(Col.T, xi), (Col.P, yi)]
  let tdf := df.filter (fun r => rvEqQ yi r.P)
  if !tdf.isEmpty then
    -- rows at exactly this pressure: interpolate every value column along T,
    -- with left=np.nan, right=np.nan
    let rest ← (dofList.filter (fun d => !(d == Col.T) && !(d == Col.P))).mapM
      (fun d => do
        let z ← npInterpE xi (tdf.map (fun r => (some r.T, some (r.get d))))
          (some none) (some none)
        pure (d, z))
    pure (base ++ rest)
  else
    match findBracket yi (tbl.uniqs Col.P) with
    | none => .error "P not between tabulated block pressures"
    | some (PL, PR) => do
      let LDF := df.filter (fun r => r.P = PL)
      let RDF := df.filter (fun r => r.P = PR)
      let LT := LDF.map (fun r => r.T)
      let RT := RDF.map (fun r => r.T)
      let CT := LT.filter (fun t => RT.contains t)
      if rvMem xi CT then
        let rest ← (dofList.filter (fun d => !(d == Col.T) && !(d == Col.P))).mapM
          (fun d => do
            let lrow ← pyIndex (LDF.filter (fun r => rvEqQ xi r.T)) 0 "IndexError"
            let rrow ← pyIndex (RDF.filter (fun r => rvEqQ xi r.T)) 0 "IndexError"
            let z ← npInterpE yi
              [(some PL, some (lrow.get d)), (some PR, some (rrow.get d))]
              (some none) (some none)
            pure (d, z))
        pure (base ++ rest)
      else
        match findBracket xi CT with
        | none => .error "T not between common temperatures of bracketing blocks"
        | some (TL, TR) => do
          let LTDF := sortByT (LDF.filter (fun r => r.T = TL || r.T = TR))
          let RTDF := sortByT (RDF.filter (fun r => r.T = TL || r.T = TR))
          let rest ← (dofList.filter (fun d => !(d == Col.T) && !(d == Col.P))).mapM
            (fun p => do
              let l0 ← pyIndex LTDF 0 "IndexError"
              let r0 ← pyIndex RTDF 0 "IndexError"
              let l1 ← pyIndex LTDF 1 "IndexError"
              let r1 ← pyIndex RTDF 1 "IndexError"
              let iv0 ← npInterpE yi
                [(some PL, some (l0.get p)), (some PR, some (r0.get p))]
                (some none) (some none)
              let iv1 ← npInterpE yi
                [(some PL, some (l1.get p)), (some PR, some (r1.get p))]
                (some none) (some none)
              -- final interpolation along T uses numpy's default edges (clamp)
              let z ← npInterpE xi [(some TL, iv0), (some TR, iv1)] none none
              pure (p, z))
          pure (base ++ rest)

/-- `UnsaturatedSteamTable.TThBilinear(specdict)` with
`specdict = T: xi, yn: yi`, `yn` one of v,u,s,h.  Sweeps pressure blocks in
decreasing order, keeps those whose `yn` column straddles `yi`, interpolates
each kept block at T = `xi`, then interpolates the collected series against
`yi` (numpy default edges, i.e. clamping). -/
def UnsaturatedSteamTable.TThBilinear (tbl : UnsaturatedSteamTable) (xi : RVal)
    (yn : Col) (yi : RVal) : Except String PropDict := do
  let df := tbl.data
  let retained := ((tbl.uniqs Col.P).reverse).filter (fun p =>
    strictlyInside yi ((df.filter (fun r => r.P = p)).map (fun r => r.get yn)))
  let LL : Col → List RVal := fun d =>
    retained.map (fun p =>
      let tdf := df.filter (fun r => r.P = p)
      npInterp xi (tdf.map (fun r => (some r.T, some (r.get d)))) (some none) (some none))
  let X := LL yn
  let retP ← npInterpE yi (X.zip (retained.map (fun p => some p))) none none
  let rest ← (([Col.v, Col.u, Col.s, Col.h] : List Col).filter (fun d => !(d == yn))).mapM
    (fun d => do
      let z ← npInterpE yi (X.zip (LL d)) none none
      pure (d, z))
  pure ([(Col.T, xi), (yn, yi), (Col.P, retP)] ++ rest)

/-- `UnsaturatedSteamTable.PThBilinear(specdict)` with
`specdict = P: xi, yn: yi`, `yn` one of v,u,s,h.  Note the source first
stores the pressure under the key `'T'`; that slot is overwritten when the
actual temperature is interpolated (the result never carries a `'P'`
key). -/
def UnsaturatedSteamTable.PThBilinear (tbl : UnsaturatedSteamTable) (xi : RVal)
    (yn : Col) (yi : RVal) : Except String PropDict := do
  let df := tbl.data
  let dof := dofList.filter (fun d => !(d == yn) && !(d == Col.P))
  let base : PropDict := [(Col.T, xi), (yn, yi)]
  if rvMem xi (tbl.uniqs Col.P) then
    let tdf := df.filter (fun r => rvEqQ xi r.P)
    let upd ← dof.mapM (fun pp => do
      let z ← npInterpE yi (tdf.map (fun r => (some (r.get yn), some (r.get pp))))
        (some none) (some none)
      pure (pp, z))
    pure (upd.foldl (fun d kv => dictSet d kv.1 kv.2) base)
  else
    match findBracket xi (tbl.uniqs Col.P) with
    | none => .error "Error: no two blocks bracket P"
    | some (PL, PR) => do
      let ldf := df.filter (fun r => r.P = PL)
      let rdf := df.filter (fun r => r.P = PR)
      let lval : Col → RVal := fun pp =>
        npInterp yi (ldf.map (fun r => (some (r.get yn), some (r.get pp))))
          (some none) (some none)
      let rval : Col → RVal := fun pp =>
        npInterp yi (rdf.map (fun r => (some (r.get yn), some (r.get pp))))
          (some none) (some none)
      let upd ← dof.mapM (fun pp => do
        let z ← npInterpE xi [(some PL, lval pp), (some PR, rval pp)]
          (some none) (some none)
        pure (pp, z))
      pure (upd.foldl (fun d kv => dictSet d kv.1 kv.2) base)

/-- `UnsaturatedSteamTable.ThThBilinear(specdict)`, two non-T/P properties.
The source initialises `LLdat[d]` as empty lists (never a `'P'` entry, which
is only created if a row qualifies), then *overwrites* entries with bare
scalars inside the sweep (`LLdat[d] = np.interp(...)`, not `append`).  The
final `np.interp(yi, X, ...)` therefore always receives an empty list or a
0-d scalar as its sample array and raises. -/
def UnsaturatedSteamTable.ThThBilinear (tbl : UnsaturatedSteamTable)
    (xn : Col) (xi : RVal) (yn : Col) (yi : RVal) : Except String PropDict := do
  if xn = Col.T ∨ xn = Col.P ∨ yn = Col.T ∨ yn = Col.P then
    .error "AssertionError"
  else do
    let df := tbl.data
    let LLdat : Col → Option PyVal := fun d =>
      if d = Col.T then some (.pylist ((tbl.uniqs Col.T).map (fun t => some t)))
      else if d = xn then some (.pylist [])
      else if d = Col.P then
        -- the 'P' key exists only if some T-row qualified for it
        match ((tbl.uniqs Col.T).filter (fun t =>
          strictlyInside yi ((df.filter (fun r => r.T = t)).map (fun r => r.get d)))).getLast? with
        | some t =>
          some (.pyscalar (npInterp xi
            ((df.filter (fun r => r.T = t)).map (fun r => (some (r.get xn), some (r.get d))))
            (some none) (some none)))
        | none => none
      else
        match ((tbl.uniqs Col.T).filter (fun t =>
          strictlyInside yi ((df.filter (fun r => r.T = t)).map (fun r => r.get d)))).getLast? with
        | some t =>
          some (.pyscalar (npInterp xi
            ((df.filter (fun r => r.T = t)).map (fun r => (some (r.get xn), some (r.get d))))
            (some none) (some none)))
        | none => some (.pylist [])
    let X ← match LLdat yn with
      | some v => pure v
      | none => .error "KeyError"
    let rest ← (dofList.filter (fun d => !(d == xn) && !(d == yn))).mapM (fun d => do
      let fp ← match LLdat d with
        | some v => pure v
        | none => .error "KeyError"
      let z ← npInterpPy yi X fp none none
      pure (d, z))
    pure ([(xn, xi), (yn, yi)] ++ rest)

/-- The general `Bilinear` dispatcher on the shape of the two-key spec
dictionary. -/
def UnsaturatedSteamTable.Bilinear (tbl : UnsaturatedSteamTable)
    (sd : (Col × RVal) × (Col × RVal)) : Except String PropDict :=
  let ((xn, xi), (yn, yi)) := sd
  if xn = Col.T ∧ yn = Col.P then tbl.TPBilinear xi yi
  else if xn = Col.T then tbl.TThBilinear xi yn yi
  else if xn = Col.P then tbl.PThBilinear xi yn yi
  else tbl.ThThBilinear xn xi yn yi

/-! ## The saturated steam table (`satd.py`, absent from the sources) -/

/-- A column of the saturation table: the T/P correspondence plus matched
liquid (`L`) / vapor (`V`) values of v, u, h, s. -/
inductive SatCol : Type
  | T | P | vL | vV | uL | uV | hL | hV | sL | sV
deriving DecidableEq, Repr

/-- One saturation row. -/
structure SatRow : Type where
  T : ℚ
  P : ℚ
  vL : ℚ
  vV : ℚ
  uL : ℚ
  uV : ℚ
  hL : ℚ
  hV : ℚ
  sL : ℚ
  sV : ℚ
deriving DecidableEq, Repr

def SatRow.get (r : SatRow) : SatCol → ℚ
  | .T => r.T
  | .P => r.P
  | .vL => r.vL
  | .vV => r.vV
  | .uL => r.uL
  | .uV => r.uV
  | .hL => r.hL
  | .hV => r.hV
  | .sL => r.sL
  | .sV => r.sV

/-- Modelled from the spec: the module `satd.py` defining
`SaturatedSteamTables` is not among the available sources (only its callers
in `state.py` and `cli.py` are).  Per spec sections 3 and 4.1 it is an
immutable table of rows ascending in both T and P, each row giving the
saturation T-P correspondence and matched liquid/vapor values, exposing
range limits `lim[p] = (min, max)` and piecewise-linear interpolation
callables `interpolators[anchor][target]` built with
`scipy.interpolate.interp1d` (which raises on queries outside the tabulated
range). -/
structure SaturatedSteamTables : Type where
  rows : List SatRow
deriving DecidableEq, Repr

/-- Modelled from the spec: `satd.lim[p] = (min, max)` of the anchor column;
with rows ascending these are the first and last entries. -/
def SaturatedSteamTables.lim (satd : SaturatedSteamTables) (p : SatCol) : ℚ × ℚ :=
  let col := satd.rows.map (fun r => r.get p)
  (col.headD 0, col.getLastD 0)

/-- The in-range piecewise-linear walk of `interp1d` (exact in `ℚ`). -/
def interpWalkQ (x : ℚ) : List (ℚ × ℚ) → ℚ
  | [] => 0
  | (x0, y0) :: rest =>
    match rest with
    | [] => y0
    | (x1, y1) :: _ =>
      if x1 < x then interpWalkQ x rest
      else y0 + (y1 - y0) * (x - x0) / (x1 - x0)

/-- Modelled from the spec: a `scipy.interpolate.interp1d` callable over the
given sample points — linear interpolation, raising a ValueError on a query
below/above the tabulated range (`bounds_error` default).  A NaN query
passes the (IEEE-false) bounds checks and yields NaN. -/
def interp1dE (x : RVal) (pts : List (ℚ × ℚ)) : Except String RVal :=
  match x with
  | none => .ok none
  | some q =>
    match pts with
    | [] => .error "interp1d: empty sample array"
    | (x0, _) :: _ =>
      if q < x0 then .error "A value in x_new is below the interpolation range"
      else if (pts.getLastD (x0, 0)).1 < q then
        .error "A value in x_new is above the interpolation range"
      else .ok (some (interpWalkQ q pts))

/-- Modelled from the spec: `satd.interpolators[anchor][target]`, anchored
on the T or P column. -/
def SaturatedSteamTables.interp (satd : SaturatedSteamTables)
    (anchor target : SatCol) (x : RVal) : Except String RVal :=
  interp1dE x (satd.rows.map (fun r => (r.get anchor, r.get target)))

/-! ## The State entity (`state.py`) -/

/-- A state field: the six state variables plus the vapor quality `x`. -/
inductive Fld : Type
  | T | P | v | u | h | s | x
deriving DecidableEq, Repr

/-- A Python attribute slot: `none` is the Python value `None` (unset);
`some rv` a stored float/Quantity whose magnitude is `rv` (possibly
NaN). -/
abbrev Slot : Type := Option RVal

/-- The seven input-eligible attribute slots of a `State`. -/
structure StateVars : Type where
  T : Slot := none
  P : Slot := none
  v : Slot := none
  u : Slot := none
  h : Slot := none
  s : Slot := none
  x : Slot := none
deriving DecidableEq, Repr

def StateVars.get (sv : StateVars) : Fld → Slot
  | .T => sv.T
  | .P => sv.P
  | .v => sv.v
  | .u => sv.u
  | .h => sv.h
  | .s => sv.s
  | .x => sv.x

def StateVars.setF (sv : StateVars) : Fld → Slot → StateVars
  | .T, w => { sv with T := w }
  | .P, w => { sv with P := w }
  | .v, w => { sv with v := w }
  | .u, w => { sv with u := w }
  | .h, w => { sv with h := w }
  | .s, w => { sv with s := w }
  | .x, w => { sv with x := w }

/-- `_STATE_VAR_ORDERED_FIELDS = ['T', 'P', 'v', 's', 'h', 'u']`.  The code
mostly iterates the frozenset `_STATE_VAR_FIELDS`, whose CPython iteration
order is implementation-defined; this model fixes it to the list order.  No
claim below depends on the iteration order (only on membership and
counts). -/
def stateVarOrderedFields : List Fld := [.T, .P, .v, .s, .h, .u]

/-- `self._STATE_VAR_FIELDS - {'T','P'}` as iterated in `_resolve_satd`. -/
def fieldsMinusTP : List Fld := [.v, .s, .h, .u]

/-- A `State` instance after `__post_init__`: the seven slots, the
dynamically-created `Liquid`/`Vapor` sub-states, the `_cache` dictionary
(only key ever written is `'lookup'`, with value `None`, so the key set
suffices), and the `_input_state` snapshot. -/
structure State : Type where
  vars : StateVars := {}
  liquid : Option StateVars := none
  vapor : Option StateVars := none
  cache : List String := []
  inputState : Option StateVars := none
deriving DecidableEq, Repr

/-- `State.__setattr__` for an input-eligible name (all of `Fld` is
`_STATE_VAR_FIELDS ∪ \x7b'x'\x7d`): clears the `_cache` dictionary before
storing, whatever the value is (including `None` and including a value equal
to the one already stored).  The `pint` unit wrapping leaves the canonical
magnitude unchanged, so at magnitude level the slot simply receives the
value. -/
def State.setattr (st : State) (name : Fld) (value : Slot) : State :=
  { st with cache := [], vars := st.vars.setF name value }

/-- `getattr(self, f).m`: the magnitude of a slot, raising AttributeError on
a Python `None` (as `.m` on `None` does). -/
def getSlot (sv : StateVars) (f : Fld) : Except String RVal :=
  match sv.get f with
  | none => .error "AttributeError: NoneType has no attribute m"
  | some rv => .ok rv

/-- `State._get_statespec`: the list of set state-variable fields, with the
acceptance rules of the source — if `x` is set, `T` or `P` must be set (the
count of set fields is NOT checked in that branch); if `x` is unset, exactly
two of the six state variables must be set. -/
def State.get_statespec (sv : StateVars) : Except String (List Fld) :=
  let vals := stateVarOrderedFields.map sv.get
  let returnList := stateVarOrderedFields.filter (fun p => (sv.get p).isSome)
  match sv.x with
  | some _ =>
    if sv.T = none ∧ sv.P = none then
      .error "Must specify T or P for an explicitly saturated state"
    else
      .ok (returnList ++ [Fld.x])
  | none =>
    if vals.countP (fun w => w.isSome) ≠ 2 then
      .error "Exactly two state variables must be specified"
    else
      .ok returnList

/-- Critical temperature, `647.3 K` converted to degC: `374.15`. -/
def TCC : ℚ := 7483 / 20

/-- Critical pressure, `221.20 bar` converted to MPa: `22.12`. -/
def PCMPA : ℚ := 553 / 25

/-- The sentinel `LARGE = 1.e99` used for the saturation pressure when T is
outside the saturation table's range. -/
def LARGE : ℚ := 10 ^ 99

/-- The saturation-table column holding θ at the given phase (`'V'` or
`'L'` suffix in the interpolator keys). -/
def satColV : Fld → Except String SatCol
  | .v => .ok .vV
  | .u => .ok .uV
  | .h => .ok .hV
  | .s => .ok .sV
  | _ => .error "KeyError"

def satColL : Fld → Except String SatCol
  | .v => .ok .vL
  | .u => .ok .uL
  | .h => .ok .hL
  | .s => .ok .sL
  | _ => .error "KeyError"

/-- The anchor column (`'T'` or `'P'`) of the saturation interpolators. -/
def satColTP : Fld → Except String SatCol
  | .T => .ok .T
  | .P => .ok .P
  | _ => .error "KeyError"

/-- Lines 331-342 of `_check_saturation`: limit check then the
liquid/vapor band test on the companion property. -/
def State.checkBand (satd : SaturatedSteamTables) (sv : StateVars)
    (p : Fld) (vm : RVal) (op : Fld) : Except String Bool := do
  let pc ← satColTP p
  let lims := satd.lim pc
  if !(rvLE (some lims.1) vm && rvLE vm (some lims.2)) then
    pure false
  else do
    let cV ← satColV op
    let cL ← satColL op
    let opValV ← satd.interp pc cV vm
    let opValL ← satd.interp pc cL vm
    let thm ← getSlot sv op
    if (rvLT opValL thm && rvLT thm opValV) || (rvLT opValV thm && rvLT thm opValL) then
      pure true
    else
      pure false

/-- `State._check_saturation(specs)`. -/
def State.check_saturation (satd : SaturatedSteamTables) (sv : StateVars)
    (specs : List Fld) : Except String Bool := do
  if Fld.x ∈ specs then
    pure true
  else
    let hasT := Fld.T ∈ specs
    let hasP := Fld.P ∈ specs
    let hasOnly := xor hasT hasP
    match specs with
    | [s0, s1] =>
      if hasT ∧ hasOnly then do
        let vm ← getSlot sv .T
        let op := if s1 = Fld.T then s0 else s1
        if rvLT (some TCC) vm then pure false
        else State.checkBand satd sv .T vm op
      else if hasP ∧ hasOnly then do
        let vm ← getSlot sv .P
        let op := if s1 = Fld.P then s0 else s1
        if rvLT (some PCMPA) vm then pure false
        else State.checkBand satd sv .P vm op
      else
        pure false
    | _ => .error "IndexError"

/-- `State.clone(**kwargs)` restricted to the slot fields: a fresh `State`
whose seven slots are copied from the parent, with the given `x`
override. -/
def cloneVars (sv : StateVars) (xOverride : Slot) : StateVars :=
  { sv with x := xOverride }

/-- Column → state field. -/
def Col.toFld : Col → Fld
  | .T => .T
  | .P => .P
  | .v => .v
  | .u => .u
  | .h => .h
  | .s => .s

/-- State field → table column; `x` is not a table column (KeyError if ever
looked up, which the reachable paths never do). -/
def Fld.toCol : Fld → Except String Col
  | .T => .ok .T
  | .P => .ok .P
  | .v => .ok .v
  | .u => .ok .u
  | .h => .ok .h
  | .s => .ok .s
  | .x => .error "KeyError"

/-- The `for p, v in retdict.items(): if <keep p>: setattr(self, p, ...)`
loops that copy an interpolation result into the state (the unit wrapping
keeps the magnitude; the `p != 'x'` guard is vacuous since the tables carry
no `x` column). -/
def applyRetdict (st : State) (retdict : PropDict) (keep : Fld → Bool) : State :=
  retdict.foldl (fun acc kv =>
    if keep kv.1.toFld then acc.setattr kv.1.toFld (some kv.2) else acc) st

/-- Which single-phase grid `_resolve_at_T_and_P` dispatches to. -/
inductive GridChoice : Type
  | subcooled | superheated
deriving DecidableEq, Repr

/-- Lines 404-414 of `_resolve_at_T_and_P`: saturation pressure at T when T
is strictly inside the saturation table's temperature limits, else the
sentinel `LARGE`; subcooled iff P exceeds it. -/
def chooseUnsatGrid (satd : SaturatedSteamTables) (Tm Pm : RVal) :
    Except String GridChoice := do
  let lims := satd.lim SatCol.T
  let Psat ← (if rvLT (some lims.1) Tm && rvLT Tm (some lims.2) then
      satd.interp SatCol.T SatCol.P Tm
    else
      pure (some LARGE))
  if rvLT Psat Pm then pure .subcooled else pure .superheated

/-- `State._resolve_at_T_and_P`. -/
def State.resolve_at_T_and_P (satd : SaturatedSteamTables)
    (suph subc : UnsaturatedSteamTable) (st : State) : Except String State := do
  let Tm ← getSlot st.vars .T
  let Pm ← getSlot st.vars .P
  let grid ← chooseUnsatGrid satd Tm Pm
  let retdict ← (match grid with
    | .subcooled => subc.TPBilinear Tm Pm
    | .superheated => suph.TPBilinear Tm Pm)
  -- `if p not in specdict and p != 'x'` with specdict keys T, P
  pure (applyRetdict st retdict (fun f => !(f == Fld.T) && !(f == Fld.P)))

/-- `State._resolve_at_TorP_and_Theta`. -/
def State.resolve_at_TorP_and_Theta (satd : SaturatedSteamTables)
    (suph subc : UnsaturatedSteamTable) (st : State) (specs : List Fld) :
    Except String State := do
  let hasT := Fld.T ∈ specs
  let hasP := Fld.P ∈ specs
  if ¬(hasT ∨ hasP) then
    .error "Either T or P must be specified along with another property"
  else
    match specs with
    | [s0, s1] => do
      let p := if hasT then Fld.T else Fld.P
      let vm ← getSlot st.vars p
      let supercritical := if hasT then rvLE (some TCC) vm else rvLE (some PCMPA) vm
      let op := if s1 = p then s0 else s1
      let th ← getSlot st.vars op
      let grid ← (if !supercritical then do
          let cL ← satColL op
          let cV ← satColV op
          let pc ← satColTP p
          let thL ← satd.interp pc cL vm
          let thV ← satd.interp pc cV vm
          if rvLT th thL then pure GridChoice.subcooled
          else if rvLT thV th then pure GridChoice.superheated
          else .error "Specified state is saturated"
        else
          pure (if hasT then GridChoice.superheated else GridChoice.subcooled))
      -- the source re-checks `not is_superheated and not is_subcooled` here,
      -- which is unreachable after the branch above
      let pc ← p.toCol
      let oc ← op.toCol
      let retdict ← (match grid with
        | .superheated => suph.Bilinear ((pc, vm), (oc, th))
        | .subcooled => subc.Bilinear ((pc, vm), (oc, th)))
      pure (applyRetdict st retdict (fun f => !(specs.contains f)))
    | _ => .error "IndexError"

/-- Lines 482-489 of `_resolve_at_Theta1_and_Theta2`: the four-way dispatch
on the two caught `Bilinear` attempts.  A caught exception leaves `None`;
Python truthiness of a returned dict is its nonemptiness. -/
def theta12Dispatch (subTry supTry : Option PropDict) : Except String PropDict :=
  let truthy : Option PropDict → Bool := fun o =>
    match o with
    | none => false
    | some d => !d.isEmpty
  if truthy subTry && !truthy supTry then .ok (subTry.getD [])
  else if truthy supTry && !truthy subTry then .ok (supTry.getD [])
  else if truthy supTry && truthy subTry then
    .error "Specified state is ambiguous between subcooled and superheated states"
  else
    .error "Specified state could not be resolved as either subcooled or superheated"

/-- `State._resolve_at_Theta1_and_Theta2`. -/
def State.resolve_at_Theta1_and_Theta2 (suph subc : UnsaturatedSteamTable)
    (st : State) (specs : List Fld) : Except String State := do
  match specs with
  | [s0, s1] => do
    let v0 ← getSlot st.vars s0
    let v1 ← getSlot st.vars s1
    let c0 ← s0.toCol
    let c1 ← s1.toCol
    let sd := ((c0, v0), (c1, v1))
    let subTry := (subc.Bilinear sd).toOption
    let supTry := (suph.Bilinear sd).toOption
    let retdict ← theta12Dispatch subTry supTry
    pure (applyRetdict st retdict (fun f => !(specs.contains f)))
  | _ => .error "IndexError"

/-- `State._resolve_unsatd`. -/
def State.resolve_unsatd (satd : SaturatedSteamTables)
    (suph subc : UnsaturatedSteamTable) (st : State) (specs : List Fld) :
    Except String State :=
  if Fld.T ∈ specs ∧ Fld.P ∈ specs then
    State.resolve_at_T_and_P satd suph subc st
  else if Fld.T ∈ specs ∨ Fld.P ∈ specs then
    State.resolve_at_TorP_and_Theta satd suph subc st specs
  else
    State.resolve_at_Theta1_and_Theta2 suph subc st specs

/-- `State._resolve_satd`.  The `x`-with-θ-only branch (source lines
521-539) is translated as the error its first statement raises: `p` is a
local variable only assigned in the sibling branch, so
`th = getattr(self, p)` raises UnboundLocalError before the (also undefined)
`svi` inverse interpolation could run. -/
def State.resolve_satd (satd : SaturatedSteamTables) (st : State)
    (specs : List Fld) : Except String State := do
  if Fld.x ∈ specs then
    if Fld.T ∈ specs ∨ Fld.P ∈ specs then do
      let p := if Fld.T ∈ specs then Fld.T else Fld.P
      let vm ← getSlot st.vars p
      let complement := if p = Fld.T then Fld.P else Fld.T
      let pc ← satColTP p
      let cc ← satColTP complement
      let prop ← satd.interp pc cc vm
      let st1 := st.setattr complement (some prop)
      let liq0 := cloneVars st1.vars (some (some 0))
      let vap0 := cloneVars st1.vars (some (some 1))
      let xv ← getSlot st1.vars .x
      let (liq, vap, st2) ← fieldsMinusTP.foldlM
        (fun (acc : StateVars × StateVars × State) op => do
          let (lq, vp, s) := acc
          let cL ← satColL op
          let cV ← satColV op
          let propL ← satd.interp pc cL vm
          let propV ← satd.interp pc cV vm
          let lq := lq.setF op (some propL)
          let vp := vp.setF op (some propV)
          let lever := rvAdd (rvMul xv propV) (rvMul (rvSub (some 1) xv) propL)
          pure (lq, vp, s.setattr op (some lever)))
        (liq0, vap0, st1)
      pure { st2 with liquid := some liq, vapor := some vap }
    else
      -- `th = getattr(self, p)` with `p` unassigned in this branch
      .error "UnboundLocalError: local variable p referenced before assignment"
  else
    match specs with
    | [s0, s1] => do
      let p := if Fld.T ∈ specs then Fld.T else Fld.P
      let pcomp := if p = Fld.T then Fld.P else Fld.T
      let vm ← getSlot st.vars p
      let op := if s1 = p then s0 else s1
      let th ← getSlot st.vars op
      let pc ← satColTP p
      let cL ← satColL op
      let cV ← satColV op
      let thL ← satd.interp pc cL vm
      let thV ← satd.interp pc cV vm
      -- `th_list = [thL, thV]; th_list.sort()` on two floats: swap iff the
      -- second compares less than the first (NaNs stay put)
      let thLo := if rvLT thV thL then thV else thL
      let thHi := if rvLT thV thL then thL else thV
      if rvLT thLo th && rvLT th thHi then do
        let cc ← satColTP pcomp
        let prop ← satd.interp pc cc vm
        let st1 := st.setattr pcomp (some prop)
        let xval := rvDiv (rvSub th thL) (rvSub thV thL)
        let st2 := st1.setattr .x (some xval)
        let liq0 := cloneVars st2.vars (some (some 0))
        let vap0 := cloneVars st2.vars (some (some 1))
        -- the source recomputes the op interpolations per phase; the values
        -- are the deterministic thL/thV
        let liq1 := liq0.setF op (some thL)
        let vap1 := vap0.setF op (some thV)
        let xv ← getSlot st2.vars .x
        let (liq, vap, st3) ← (fieldsMinusTP.filter (fun f => !(f == op))).foldlM
          (fun (acc : StateVars × StateVars × State) op2 => do
            let (lq, vp, s) := acc
            let cL2 ← satColL op2
            let cV2 ← satColV op2
            let propL ← satd.interp pc cL2 vm
            let propV ← satd.interp pc cV2 vm
            let lq := lq.setF op2 (some propL)
            let vp := vp.setF op2 (some propV)
            let lever := rvAdd (rvMul xv propV) (rvMul (rvSub (some 1) xv) propL)
            pure (lq, vp, s.setattr op2 (some lever)))
          (liq1, vap1, st2)
        pure { st3 with liquid := some liq, vapor := some vap }
      else
        .error "Specified property is not between saturated liquid and vapor values"
    | _ => .error "IndexError"

/-- `State._scalarize`: converts `np.float64` wrappers to plain floats; a
numeric-representation identity at the magnitude level of this model. -/
def State.scalarize (st : State) : State := st

/-- `State._resolve`: specification check, saturation classification,
dispatch, scalarization, and the `_input_state` snapshot. -/
def State.resolve (satd : SaturatedSteamTables)
    (suph subc : UnsaturatedSteamTable) (st : State) : Except String State := do
  let spec ← State.get_statespec st.vars
  let sat ← State.check_saturation satd st.vars spec
  let st' ← (if sat then State.resolve_satd satd st spec
    else State.resolve_unsatd satd suph subc st spec)
  let st'' := st'.scalarize
  pure { st'' with inputState := some st''.vars }

/-- `State.lookup`: resolve unless the `'lookup'` cache key is present; the
key is written after `_resolve` returns (whose setattr calls have cleared
the cache). -/
def State.lookup (satd : SaturatedSteamTables)
    (suph subc : UnsaturatedSteamTable) (st : State) : Except String State :=
  if "lookup" ∈ st.cache then .ok st
  else do
    let st' ← State.resolve satd suph subc st
    pure { st' with cache := "lookup" :: st'.cache }

/-- `State.Pv`: `self.P.to('kPa') * self.v`, i.e. 1000 · P · v in kJ/kg;
AttributeError when either slot is `None`. -/
def State.Pv (sv : StateVars) : Except String RVal := do
  let Pm ← getSlot sv .P
  let vm ← getSlot sv .v
  pure (rvMul (rvMul (some 1000) Pm) vm)

/-- The value of `State.delta`: the property-difference dictionary together
with the two post-lookup states (the Python method mutates `self` and
`other` in place by forcing their resolution; this functional rendering
returns those post-states explicitly). -/
structure DeltaOut : Type where
  selfPost : State
  otherPost : State
  props : List (Fld × RVal)
  Pv : RVal
deriving DecidableEq, Repr

/-- `State.delta(other)`: force resolution of both states, then record
`other - self` for every state-variable field set (non-None) in both, plus
the `Pv` difference. -/
def State.delta (satd : SaturatedSteamTables)
    (suph subc : UnsaturatedSteamTable) (a b : State) : Except String DeltaOut := do
  let a' ← State.lookup satd suph subc a
  let b' ← State.lookup satd suph subc b
  let entries := (stateVarOrderedFields.filter (fun p =>
      (a'.vars.get p).isSome && (b'.vars.get p).isSome)).map
    (fun p => (p, rvSub ((b'.vars.get p).getD none) ((a'.vars.get p).getD none)))
  let pva ← State.Pv a'.vars
  let pvb ← State.Pv b'.vars
  pure { selfPost := a', otherPost := b', props := entries, Pv := rvSub pvb pva }

/-! ## Small helper lemmas on the `Except` monad and `RVal` arithmetic -/

lemma exc_bind_ok {α β : Type} (a : α) (f : α → Except String β) :
    (Except.ok a >>= f) = f a := rfl

lemma exc_bind_err {α β : Type} (e : String) (f : α → Except String β) :
    ((Except.error e : Except String α) >>= f) = Except.error e := rfl

lemma exc_pure {α : Type} (a : α) : (pure a : Except String α) = Except.ok a := rfl

/-- `Except.isOk` as a plain boolean. -/
def isOkE {ε α : Type} : Except ε α → Bool
  | .ok _ => true
  | .error _ => false

instance {ε α : Type} [DecidableEq ε] [DecidableEq α] : DecidableEq (Except ε α) :=
  fun a b =>
    match a, b with
    | .ok x, .ok y =>
      if h : x = y then .isTrue (by rw [h]) else .isFalse (by intro hc; cases hc; exact h rfl)
    | .error e, .error e' =>
      if h : e = e' then .isTrue (by rw [h]) else .isFalse (by intro hc; cases hc; exact h rfl)
    | .ok _, .error _ => .isFalse (by intro hc; cases hc)
    | .error _, .ok _ => .isFalse (by intro hc; cases hc)

lemma rvNeg_rvSub (x y : RVal) : rvNeg (rvSub x y) = rvSub y x := by
  cases x <;> cases y <;> simp [rvNeg, rvSub, neg_sub]

/-- Looking a key up in an association list built by mapping a keyed value
over a filtered list. -/
lemma lookup_map_filter {α β : Type} [DecidableEq α] [BEq α] [LawfulBEq α]
    (l : List α) (pred : α → Bool) (f : α → β) (a : α) :
    ((l.filter pred).map (fun x => (x, f x))).lookup a =
      if a ∈ l.filter pred then some (f a) else none := by
  induction l with
  | nil => simp
  | cons x xs ih =>
    by_cases hx : pred x = true
    · simp only [List.filter_cons, hx, if_pos, List.map_cons, List.lookup_cons]
      by_cases hax : a = x
      · subst hax
        simp [List.mem_cons]
      · have hbeq : (a == x) = false := beq_eq_false_iff_ne.mpr hax
        simp [hbeq, ih, List.mem_cons, hax]
    · simp only [List.filter_cons, hx]
      simpa using ih

/-- The last element (with default) of a nonempty list is a member. -/
lemma getLastD_mem {α : Type} : ∀ (l : List α) (d : α), l ≠ [] → l.getLastD d ∈ l := by
  intro l
  induction l with
  | nil => intro d h; exact absurd rfl h
  | cons x xs ih =>
    intro d _
    rw [List.getLastD_cons]
    cases hxs : xs with
    | nil => simp
    | cons y ys =>
      have := ih x (by simp [hxs])
      rw [hxs] at this
      exact List.mem_cons_of_mem x this

/-- `getLastD` commutes with `map` when the default is in the image. -/
lemma getLastD_map {α β : Type} (f : α → β) :
    ∀ (l : List α) (a : α), (l.map f).getLastD (f a) = f (l.getLastD a) := by
  intro l
  induction l with
  | nil => intro a; rfl
  | cons x xs ih => intro a; simp only [List.map_cons, List.getLastD_cons, ih]

/-! ## Lemmas about `np.interp` on sorted, finite sample points -/

lemma segEval_finite (a b c d e : ℚ) :
    segEval (some a) (some b) (some c) (some d) (some e) =
      some ((e - d) / (c - b) * (a - b) + d) := rfl

/-- Pair-to-`RVal`-pair encoding of finite sample points. -/
def finPt (p : ℚ × ℚ) : RVal × RVal := (some p.1, some p.2)

lemma pairwise_fst_head_le (q : ℚ × ℚ) (rest : List (ℚ × ℚ)) (p : ℚ × ℚ)
    (hs : (q :: rest).Pairwise (fun a b => a.1 < b.1)) (hm : p ∈ q :: rest) :
    q.1 ≤ p.1 := by
  rcases List.mem_cons.mp hm with heq | htail
  · rw [heq]
  · exact le_of_lt ((List.pairwise_cons.mp hs).1 p htail)

lemma pairwise_fst_le_getLastD :
    ∀ (l : List (ℚ × ℚ)) (p d : ℚ × ℚ),
      l.Pairwise (fun a b => a.1 < b.1) → p ∈ l → p.1 ≤ (l.getLastD d).1 := by
  intro l
  induction l with
  | nil => intro p d _ hm; simp at hm
  | cons q rest ih =>
    intro p d hs hm
    rw [List.getLastD_cons]
    rcases List.mem_cons.mp hm with heq | htail
    · subst heq
      by_cases hrest : rest = []
      · simp [hrest]
      · have hmem : rest.getLastD p ∈ rest := getLastD_mem rest p hrest
        exact le_of_lt ((List.pairwise_cons.mp hs).1 _ hmem)
    · exact ih p q (List.pairwise_cons.mp hs).2 htail

lemma interpWalk_mem (x y : ℚ) :
    ∀ (l : List (ℚ × ℚ)), l.Pairwise (fun p q => p.1 < q.1) → (x, y) ∈ l →
      interpWalk (some x) (l.map finPt) = some y := by
  intro l
  induction l with
  | nil => intro _ hm; simp at hm
  | cons p0 rest ih =>
    intro hs hm
    cases rest with
    | nil =>
      have heq : (x, y) = p0 := by simpa using hm
      simp [finPt, interpWalk, ← heq]
    | cons p1 rest' =>
      have h01 : p0.1 < p1.1 :=
        (List.pairwise_cons.mp hs).1 p1 (List.mem_cons_self _ _)
      rcases List.mem_cons.mp hm with heq | htail
      · -- the queried point is the first node: the left-anchored formula is exact
        have hx : x = p0.1 := by rw [← heq]
        have hy : y = p0.2 := by rw [← heq]
        have hlt : ¬ (p1.1 < x) := by rw [hx]; exact not_lt.mpr (le_of_lt h01)
        simp only [List.map_cons, finPt, interpWalk, rvLT, decide_eq_true_eq, hlt, if_false]
        rw [segEval_finite, hx, hy]
        norm_num
      · -- the queried point is further right
        have hhead : p1.1 ≤ x :=
          pairwise_fst_head_le p1 rest' (x, y) (List.pairwise_cons.mp hs).2 htail
        rcases eq_or_lt_of_le hhead with heq1 | hlt1
        · -- exactly at the second node: the segment formula is exact there too
          have hy : y = p1.2 := by
            rcases List.mem_cons.mp htail with heq2 | htail2
            · rw [← heq2]
            · exfalso
              have hlt2 := (List.pairwise_cons.mp (List.pairwise_cons.mp hs).2).1 _ htail2
              rw [heq1] at hlt2
              exact lt_irrefl x hlt2
          have hlt : ¬ (p1.1 < x) := by rw [heq1]; exact lt_irrefl x
          simp only [List.map_cons, finPt, interpWalk, rvLT, decide_eq_true_eq, hlt, if_false]
          rw [segEval_finite, hy, ← heq1]
          have hne : p1.1 - p0.1 ≠ 0 := sub_ne_zero.mpr (ne_of_gt h01)
          rw [div_mul_cancel₀ _ hne]
          norm_num
        · -- strictly beyond the second node: step the walk
          have hstep : interpWalk (some x) ((p0 :: p1 :: rest').map finPt) =
              interpWalk (some x) ((p1 :: rest').map finPt) := by
            simp only [List.map_cons, finPt, interpWalk, rvLT, decide_eq_true_eq, hlt1, if_true]
          rw [hstep]
          exact ih (List.pairwise_cons.mp hs).2 htail

lemma npInterp_cons_notlt (x : RVal) (q : RVal × RVal) (rest : List (RVal × RVal))
    (left right : Option RVal)
    (h1 : rvLT x q.1 = false) (h2 : rvLT ((q :: rest).getLastD q).1 x = false) :
    npInterp x (q :: rest) left right = interpWalk x (q :: rest) := by
  obtain ⟨x0, y0⟩ := q
  simp only [npInterp]
  rw [if_neg (by simp [h1]), if_neg (by simp_all)]

lemma npInterpE_mem (x y : ℚ) (l : List (ℚ × ℚ)) (left right : Option RVal)
    (hs : l.Pairwise (fun p q => p.1 < q.1)) (hm : (x, y) ∈ l) :
    npInterpE (some x) (l.map finPt) left right = .ok (some y) := by
  cases l with
  | nil => simp at hm
  | cons p0 rest =>
    have hhead : p0.1 ≤ x := pairwise_fst_head_le p0 rest (x, y) hs hm
    have hlast : x ≤ ((p0 :: rest).getLastD p0).1 :=
      pairwise_fst_le_getLastD (p0 :: rest) (x, y) p0 hs hm
    have hmap : (p0 :: rest).map finPt = finPt p0 :: rest.map finPt := rfl
    have hgl : ((finPt p0 :: rest.map finPt).getLastD (finPt p0)) =
        finPt ((p0 :: rest).getLastD p0) := by
      rw [← hmap]; exact getLastD_map finPt (p0 :: rest) p0
    have h1 : rvLT (some x) (finPt p0).1 = false := by
      show decide (x < p0.1) = false
      exact decide_eq_false (not_lt.mpr hhead)
    have h2 : rvLT ((finPt p0 :: rest.map finPt).getLastD (finPt p0)).1 (some x) = false := by
      rw [hgl]
      show decide (((p0 :: rest).getLastD p0).1 < x) = false
      exact decide_eq_false (not_lt.mpr hlast)
    have hiw := interpWalk_mem x y (p0 :: rest) hs hm
    rw [hmap]
    simp only [npInterpE]
    rw [if_neg (by simp)]
    rw [npInterp_cons_notlt (some x) (finPt p0) (rest.map finPt) left right h1 h2]
    rw [← hmap, hiw]

lemma npInterpE_below (x t : ℚ) (y : RVal) (rest : List (RVal × RVal)) (right : Option RVal)
    (h : x < t) : npInterpE (some x) ((some t, y) :: rest) (some none) right = .ok none := by
  simp only [npInterpE]
  rw [if_neg (by simp)]
  simp only [npInterp]
  rw [if_pos (by show decide (x < t) = true; exact decide_eq_true h)]
  rfl

/-! ## Concrete test fixtures

The actual table data files are packaged resources of the library and are
external inputs (spec section 6); the fixtures below are small synthetic
tables obeying the documented invariants (ascending T within blocks,
ascending block pressures, liquid below vapor on the saturation curve). -/

/-- A two-row saturation curve fixture, T ascending 10 → 20 degC. -/
def csatd : SaturatedSteamTables :=
  { rows := [
      { T := 10, P := 1/1000, vL := 1/1000, vV := 106, uL := 42, uV := 2389,
        hL := 42, hV := 2519, sL := 3/20, sV := 9 },
      { T := 20, P := 1/500, vL := 1/999, vV := 58, uL := 84, uV := 2402,
        hL := 84, hV := 2538, sL := 3/10, sV := 87/10 } ] }

/-- A superheated-grid fixture: two pressure blocks (P = 1, 3 MPa), each
with rows at T = 100 and 200 degC. -/
def csuph : UnsaturatedSteamTable :=
  { data := [
      { T := 100, P := 1, v := 1, u := 2, h := 3, s := 4 },
      { T := 200, P := 1, v := 5, u := 6, h := 7, s := 8 },
      { T := 100, P := 3, v := 9, u := 10, h := 11, s := 12 },
      { T := 200, P := 3, v := 13, u := 14, h := 15, s := 16 } ] }

/-- A subcooled-grid fixture: one pressure block (P = 2 MPa). -/
def csubc : UnsaturatedSteamTable :=
  { data := [
      { T := 50, P := 2, v := 21, u := 22, h := 23, s := 24 },
      { T := 60, P := 2, v := 25, u := 26, h := 27, s := 28 } ] }

/-- An input state specifying T = 100 degC, P = 1 MPa (an exact node of
`csuph`; T is outside `csatd`'s saturation range, so the superheated grid is
selected). -/
def stA : State := { vars := { T := some (some 100), P := some (some 1) } }

/-- An input state specifying T = 200 degC, P = 1 MPa. -/
def stB : State := { vars := { T := some (some 200), P := some (some 1) } }

/-- The resolved form of `stA` on the fixtures. -/
def stAres : State :=
  { vars := { T := some (some 100), P := some (some 1), v := some (some 1),
              u := some (some 2), h := some (some 3), s := some (some 4) },
    cache := ["lookup"],
    inputState := some { T := some (some 100), P := some (some 1), v := some (some 1),
                         u := some (some 2), h := some (some 3), s := some (some 4) } }

/-- The resolved form of `stB` on the fixtures. -/
def stBres : State :=
  { vars := { T := some (some 200), P := some (some 1), v := some (some 5),
              u := some (some 6), h := some (some 7), s := some (some 8) },
    cache := ["lookup"],
    inputState := some { T := some (some 200), P := some (some 1), v := some (some 5),
                         u := some (some 6), h := some (some 7), s := some (some 8) } }

/-! ## Claim C1 -/

/-- The count of set (non-None) state-variable slots, exactly the
`sum(v is not None for v in vals)` of `_get_statespec`. -/
def countSetStateVars (sv : StateVars) : Nat :=
  (stateVarOrderedFields.map sv.get).countP (fun w => w.isSome)

/-- The acceptance condition asserted by claim C1, written from the spec's
words: either x is unset and exactly two of the six state variables are set,
or x is set together with exactly one of them. -/
def claimC1Accepts (sv : StateVars) : Bool :=
  (sv.x == none && countSetStateVars sv == 2) ||
  (!(sv.x == none) && countSetStateVars sv == 1)

/-- An input with quality plus BOTH T and P set. -/
def stC1 : StateVars :=
  { T := some (some 100), P := some (some 1), x := some (some (1/2)) }

/-- Claim C1 is false on the code: with x = 0.5, T = 100 and P = 1 all set
(three inputs, which the claim's rule (b) rejects), `_get_statespec`
accepts the specification and returns it; the x-branch never counts the set
state variables. -/
theorem c1_counterexample :
    claimC1Accepts stC1 = false ∧
    State.get_statespec stC1 = .ok [Fld.T, Fld.P, Fld.x] := by
  constructor
  · rfl
  · rfl

/-- Amended claim C1: the specification is accepted iff either x is unset
and exactly two of {T,P,v,u,h,s} are set, or x is set and at least one of
T, P is set (the other state variables are then not counted at all); every
other combination raises a specification error before any table lookup. -/
theorem c1_amended (sv : StateVars) :
    isOkE (State.get_statespec sv) = true ↔
      ((sv.x = none ∧ countSetStateVars sv = 2) ∨
       (sv.x ≠ none ∧ (sv.T ≠ none ∨ sv.P ≠ none))) := by
  unfold State.get_statespec countSetStateVars
  cases hx : sv.x with
  | none =>
    simp only [hx]
    by_cases hc : (stateVarOrderedFields.map sv.get).countP (fun w => w.isSome) = 2
    · rw [if_neg (not_not_intro hc)]
      constructor
      · intro _; exact Or.inl ⟨by trivial, hc⟩
      · intro _; rfl
    · rw [if_pos hc]
      simp only [isOkE]
      constructor
      · intro habs; exact absurd habs Bool.false_ne_true
      · intro hor
        rcases hor with ⟨_, hcount⟩ | ⟨hxne, _⟩
        · exact absurd hcount hc
        · exact absurd (by trivial) hxne
  | some w =>
    simp only [hx]
    by_cases hc : sv.T = none ∧ sv.P = none
    · rw [if_pos hc]
      simp only [isOkE]
      constructor
      · intro habs; exact absurd habs Bool.false_ne_true
      · intro hor
        rcases hor with ⟨hxn, _⟩ | ⟨_, hTP⟩
        · exact absurd hxn (by simp)
        · rcases hTP with hT | hP
          · exact absurd hc.1 hT
          · exact absurd hc.2 hP
    · rw [if_neg hc]
      constructor
      · intro _
        refine Or.inr ⟨by simp, ?_⟩
        by_cases hT : sv.T = none
        · right; intro hP; exact hc ⟨hT, hP⟩
        · left; exact hT
      · intro _; rfl

/-! ## Claim C3 -/

/-- The state from the spec's worked example for quality-plus-θ: x = 0.5
with only h = 1500 set. -/
def stC3 : State := { vars := { h := some (some 1500), x := some (some (1/2)) } }

/-- Claim C3 describes the `x`-with-θ inverse interpolation, but the code
can never perform it: `_get_statespec` raises a specification error whenever
x is set without T or P, and the `_resolve_satd` branch that would do the
inverse interpolation is unreachable dead code that would raise
UnboundLocalError on its first line (`p` is unassigned there; the `svi`
helper it then calls is undefined in the module). -/
theorem c3_quality_theta_unreachable :
    State.get_statespec stC3.vars =
      .error "Must specify T or P for an explicitly saturated state" ∧
    State.resolve_satd csatd stC3 [Fld.h, Fld.x] =
      .error "UnboundLocalError: local variable p referenced before assignment" ∧
    State.lookup csatd csuph csubc stC3 =
      .error "Must specify T or P for an explicitly saturated state" := by
  refine ⟨rfl, rfl, rfl⟩

/-! ## Claim C10 -/

/-- Claim C10: every assignment to one of the seven input-eligible slots
empties the `_cache` dictionary, whatever value is written (including the
already-stored value and `None`): invalidation is keyed on assignment, not
on change of value. -/
theorem c10_setattr_clears_cache (st : State) (f : Fld) (w : Slot) :
    (st.setattr f w).cache = [] := rfl

lemma ite_bool_true {α : Type} (a b : α) : (if true = true then a else b) = a := rfl

lemma ite_bool_false {α : Type} (a b : α) : (if false = true then a else b) = b := rfl

/-! ## Claim C4 -/

/-- Claim C4 is false on the code: T = 300 lies above every tabulated
temperature of the fixture grid (first conjunct), yet `TPBilinear` at the
exact block pressure P = 1 does not raise; it returns a dictionary whose
v, u, h, s entries are NaN (`np.interp` with `left=np.nan, right=np.nan`
silently out of range). -/
theorem c4_counterexample :
    csuph.data.all (fun r => decide (r.T < 300)) = true ∧
    csuph.TPBilinear (some 300) (some 1) =
      .ok [(Col.T, some 300), (Col.P, some 1), (Col.v, none), (Col.u, none),
           (Col.h, none), (Col.s, none)] := by
  exact ⟨rfl, rfl⟩

/-- Claim C4, amended: a `TPBilinear` query whose pressure neither matches a
tabulated block nor lies strictly between two adjacent block pressures
raises a bracketing error; but when the pressure matches a block exactly and
the temperature lies outside that block's range, the call returns a result
whose v, u, h, s values are all NaN instead of raising. -/
theorem c4_amended :
    (∀ (tbl : UnsaturatedSteamTable) (xi yi : RVal),
        tbl.data.filter (fun r => rvEqQ yi r.P) = [] →
        findBracket yi (tbl.uniqs Col.P) = none →
        tbl.TPBilinear xi yi = .error "P not between tabulated block pressures") ∧
    (∀ (tbl : UnsaturatedSteamTable) (xi : ℚ) (yi : RVal),
        tbl.data.filter (fun r => rvEqQ yi r.P) ≠ [] →
        (∀ r ∈ tbl.data.filter (fun r => rvEqQ yi r.P), xi < r.T) →
        tbl.TPBilinear (some xi) yi =
          .ok [(Col.T, some xi), (Col.P, yi), (Col.v, none), (Col.u, none),
               (Col.h, none), (Col.s, none)]) := by
  constructor
  · intro tbl xi yi h1 h2
    simp only [UnsaturatedSteamTable.TPBilinear, h1, List.isEmpty_nil, Bool.not_true,
      if_false, h2]
    rw [if_neg (by simp)]
  · intro tbl xi yi h1 h2
    unfold UnsaturatedSteamTable.TPBilinear
    cases htdf : tbl.data.filter (fun r => rvEqQ yi r.P) with
    | nil => exact absurd htdf h1
    | cons r0 rest =>
      rw [htdf] at h2
      have hr0 : xi < r0.T := h2 r0 (List.mem_cons_self _ _)
      have hdof : dofList.filter (fun d => !(d == Col.T) && !(d == Col.P)) =
          [Col.v, Col.u, Col.h, Col.s] := rfl
      have hnp : ∀ d : Col,
          npInterpE (some xi)
            ((r0 :: rest).map (fun r => ((some r.T : RVal), (some (r.get d) : RVal))))
            (some none) (some none) = .ok none := by
        intro d
        rw [List.map_cons,
          npInterpE_below xi r0.T (some (r0.get d))
            (rest.map (fun r => (some r.T, some (r.get d)))) (some none) hr0]
      simp only [htdf, List.isEmpty_cons, Bool.not_false, if_true, hdof]
      simp only [List.mapM_cons, List.mapM_nil, hnp, exc_bind_ok, exc_pure]
      rfl

/-- Witness for `c4_amended` at concrete inputs: on the fixture grid, a
pressure above every block raises, and an exact-block pressure with an
out-of-range temperature yields the NaN dictionary. -/
theorem c4_amended_witness :
    csuph.TPBilinear (some 0) (some 10) =
      .error "P not between tabulated block pressures" ∧
    csuph.TPBilinear (some 0) (some 1) =
      .ok [(Col.T, some 0), (Col.P, some 1), (Col.v, none), (Col.u, none),
           (Col.h, none), (Col.s, none)] :=
  ⟨c4_amended.1 csuph (some 0) (some 10) (by rfl) (by rfl),
   c4_amended.2 csuph 0 (some 1) (by decide) (by decide)⟩

/-! ## Claim C6 -/

/-- The saturation interpolator evaluated strictly inside the anchor
column's limits succeeds with the piecewise-linear value. -/
lemma satd_interp_strict_inside (satd : SaturatedSteamTables) (a b : SatCol) (q : ℚ)
    (h1 : (satd.lim a).1 < q) (h2 : q < (satd.lim a).2) :
    satd.interp a b (some q) =
      .ok (some (interpWalkQ q (satd.rows.map (fun r => (r.get a, r.get b))))) := by
  cases hrows : satd.rows with
  | nil =>
    exfalso
    unfold SaturatedSteamTables.lim at h1 h2
    rw [hrows] at h1 h2
    simp at h1 h2
    linarith
  | cons r0 rs =>
    have hh : (satd.lim a).1 = r0.get a := by
      simp [SaturatedSteamTables.lim, hrows]
    have hl : (satd.lim a).2 =
        ((rs.map (fun r => (r.get a, r.get b))).getLastD (r0.get a, r0.get b)).1 := by
      simp only [SaturatedSteamTables.lim, hrows, List.map_cons, List.getLastD_cons]
      rw [getLastD_map (fun r => (r.get a, r.get b)) rs r0]
      rw [getLastD_map (fun r => r.get a) rs r0]
    simp only [SaturatedSteamTables.interp, hrows, List.map_cons, interp1dE]
    rw [if_neg (not_lt.mpr (le_of_lt (hh ▸ h1)))]
    rw [List.getLastD_cons]
    rw [if_neg (not_lt.mpr (le_of_lt (hl ▸ h2)))]

/-- Claim C6, amended: with both T and P given and the state classified
unsaturated, the resolver computes Psat(T) by saturation interpolation when
T lies strictly inside the saturation table's temperature limits and
dispatches to the subcooled grid exactly when P > Psat(T); when T is at or
outside the limits, Psat is not unbounded but the sentinel
`LARGE = 1e99`, so the superheated grid is used exactly when
P ≤ 1e99 (the subcooled grid is chosen for P above the sentinel). -/
theorem c6_amended (satd : SaturatedSteamTables) (Tm Pm : ℚ) :
    ((satd.lim SatCol.T).1 < Tm ∧ Tm < (satd.lim SatCol.T).2 →
      chooseUnsatGrid satd (some Tm) (some Pm) =
        .ok (if interpWalkQ Tm (satd.rows.map (fun r => (r.T, r.P))) < Pm
             then GridChoice.subcooled else GridChoice.superheated)) ∧
    (¬ ((satd.lim SatCol.T).1 < Tm ∧ Tm < (satd.lim SatCol.T).2) →
      chooseUnsatGrid satd (some Tm) (some Pm) =
        .ok (if LARGE < Pm then GridChoice.subcooled else GridChoice.superheated)) := by
  constructor
  · intro h
    have hint := satd_interp_strict_inside satd SatCol.T SatCol.P Tm h.1 h.2
    have hmapeq : satd.rows.map (fun r => (r.get SatCol.T, r.get SatCol.P)) =
        satd.rows.map (fun r => (r.T, r.P)) := by simp [SatRow.get]
    rw [hmapeq] at hint
    have hcond : (rvLT (some (satd.lim SatCol.T).1) (some Tm) &&
        rvLT (some Tm) (some (satd.lim SatCol.T).2)) = true := by
      have hA : rvLT (some (satd.lim SatCol.T).1) (some Tm) = true := by
        show decide ((satd.lim SatCol.T).1 < Tm) = true
        exact decide_eq_true h.1
      have hB : rvLT (some Tm) (some (satd.lim SatCol.T).2) = true := by
        show decide (Tm < (satd.lim SatCol.T).2) = true
        exact decide_eq_true h.2
      rw [hA, hB]
      rfl
    by_cases hpm : interpWalkQ Tm (satd.rows.map (fun r => (r.T, r.P))) < Pm
    · have hb : rvLT (some (interpWalkQ Tm (satd.rows.map (fun r => (r.T, r.P)))))
          (some Pm) = true := by
        show decide (interpWalkQ Tm (satd.rows.map (fun r => (r.T, r.P))) < Pm) = true
        exact decide_eq_true hpm
      simp only [chooseUnsatGrid, hcond, ite_bool_true, eq_self_iff_true, if_true, hint,
        exc_bind_ok, hb, if_pos hpm, exc_pure]
    · have hb : rvLT (some (interpWalkQ Tm (satd.rows.map (fun r => (r.T, r.P)))))
          (some Pm) = false := by
        show decide (interpWalkQ Tm (satd.rows.map (fun r => (r.T, r.P))) < Pm) = false
        exact decide_eq_false hpm
      simp only [chooseUnsatGrid, hcond, ite_bool_true, eq_self_iff_true, if_true, hint,
        exc_bind_ok, hb, ite_bool_false, if_neg hpm, exc_pure]
  · intro h
    have hcond : (rvLT (some (satd.lim SatCol.T).1) (some Tm) &&
        rvLT (some Tm) (some (satd.lim SatCol.T).2)) = false := by
      rcases not_and_or.mp h with hA | hB
      · have hf : rvLT (some (satd.lim SatCol.T).1) (some Tm) = false := by
          show decide ((satd.lim SatCol.T).1 < Tm) = false
          exact decide_eq_false hA
        rw [hf, Bool.false_and]
      · have hf : rvLT (some Tm) (some (satd.lim SatCol.T).2) = false := by
          show decide (Tm < (satd.lim SatCol.T).2) = false
          exact decide_eq_false hB
        rw [hf, Bool.and_false]
    by_cases hpm : LARGE < Pm
    · have hb : rvLT (some LARGE) (some Pm) = true := by
        show decide (LARGE < Pm) = true
        exact decide_eq_true hpm
      simp only [chooseUnsatGrid, hcond, ite_bool_false, exc_bind_ok, hb, ite_bool_true,
        eq_self_iff_true, if_true, if_pos hpm, exc_pure]
    · have hb : rvLT (some LARGE) (some Pm) = false := by
        show decide (LARGE < Pm) = false
        exact decide_eq_false hpm
      simp only [chooseUnsatGrid, hcond, ite_bool_false, exc_bind_ok, hb, if_neg hpm,
        exc_pure]

set_option maxRecDepth 4000 in
/-- Claim C6 is false on the code as stated: for T = 1000, above the
saturation table's range (first conjunct), and P = 10^100 above the
`LARGE = 1e99` sentinel, the resolver dispatches to the SUBCOOLED grid,
not the superheated one — the saturation pressure is the finite sentinel,
not unbounded. -/
theorem c6_counterexample :
    (csatd.lim SatCol.T).2 < 1000 ∧
    chooseUnsatGrid csatd (some 1000) (some (10 ^ 100)) = .ok GridChoice.subcooled := by
  exact ⟨by decide, by rfl⟩

/-- Witness for `c6_amended` on the fixture: T = 15 inside the saturation
range dispatches by Psat comparison (P = 1 > Psat(15) = 0.0015, so
subcooled); T = 100 outside the range with moderate P dispatches
superheated. -/
theorem c6_amended_witness :
    chooseUnsatGrid csatd (some 15) (some 1) = .ok GridChoice.subcooled ∧
    chooseUnsatGrid csatd (some 100) (some 1) = .ok GridChoice.superheated := by
  constructor
  · have h := (c6_amended csatd 15 1).1 (by decide)
    rw [h, if_pos (by norm_num [interpWalkQ, csatd])]
  · have h := (c6_amended csatd 100 1).2 (by decide)
    rw [h, if_neg (by norm_num [LARGE])]

/-! ## Claim C7 -/

/-- At an exact grid node — a pressure that matches a tabulated block
(whose rows are strictly ascending in T, the documented table invariant)
and a temperature equal to one of that block's rows — `TPBilinear`
reproduces the row's v, u, h, s exactly and raises no error. -/
lemma TPBilinear_exact_node (tbl : UnsaturatedSteamTable) (r : Row)
    (hmem : r ∈ tbl.data)
    (hsorted : (tbl.data.filter (fun q => rvEqQ (some r.P) q.P)).Pairwise
      (fun a b => a.T < b.T)) :
    tbl.TPBilinear (some r.T) (some r.P) =
      .ok [(Col.T, some r.T), (Col.P, some r.P), (Col.v, some r.v),
           (Col.u, some r.u), (Col.h, some r.h), (Col.s, some r.s)] := by
  have hmemf : r ∈ tbl.data.filter (fun q => rvEqQ (some r.P) q.P) := by
    refine List.mem_filter.mpr ⟨hmem, ?_⟩
    show decide (r.P = r.P) = true
    simp
  unfold UnsaturatedSteamTable.TPBilinear
  cases htdf : tbl.data.filter (fun q => rvEqQ (some r.P) q.P) with
  | nil => rw [htdf] at hmemf; simp at hmemf
  | cons r0 rest =>
    have hdof : dofList.filter (fun d => !(d == Col.T) && !(d == Col.P)) =
        [Col.v, Col.u, Col.h, Col.s] := rfl
    have hnp : ∀ d : Col,
        npInterpE (some r.T)
          ((r0 :: rest).map (fun q => ((some q.T : RVal), (some (q.get d) : RVal))))
          (some none) (some none) = .ok (some (r.get d)) := by
      intro d
      have hmm : (r.T, r.get d) ∈ (r0 :: rest).map (fun q => (q.T, q.get d)) := by
        rw [← htdf]
        exact List.mem_map_of_mem _ hmemf
      have hpw : ((r0 :: rest).map (fun q => (q.T, q.get d))).Pairwise
          (fun p q' => p.1 < q'.1) := by
        rw [← htdf]
        exact List.Pairwise.map _ (fun a b hab => hab) hsorted
      have hres := npInterpE_mem r.T (r.get d)
        ((r0 :: rest).map (fun q => (q.T, q.get d))) (some none) (some none) hpw hmm
      rw [List.map_map] at hres
      exact hres
    simp only [htdf, List.isEmpty_cons, Bool.not_false, hdof]
    simp only [List.mapM_cons, List.mapM_nil, hnp, exc_bind_ok, exc_pure]
    rfl

/-- Claim C7: for every exact (T, P) grid node of a single-phase table —
P equal to a tabulated block pressure and T equal to a tabulated row of
that block, the block ascending in T — `TPBilinear` returns exactly the
tabulated v, u, h, s of that row, with no interpolation error. -/
theorem c7_exact_node (tbl : UnsaturatedSteamTable) (r : Row)
    (hmem : r ∈ tbl.data)
    (hsorted : (tbl.data.filter (fun q => rvEqQ (some r.P) q.P)).Pairwise
      (fun a b => a.T < b.T)) :
    tbl.TPBilinear (some r.T) (some r.P) =
      .ok [(Col.T, some r.T), (Col.P, some r.P), (Col.v, some r.v),
           (Col.u, some r.u), (Col.h, some r.h), (Col.s, some r.s)] :=
  TPBilinear_exact_node tbl r hmem hsorted

/-- Witness for `c7_exact_node`: the (100, 1) node of the fixture grid. -/
theorem c7_exact_node_witness :
    csuph.TPBilinear (some 100) (some 1) =
      .ok [(Col.T, some 100), (Col.P, some 1), (Col.v, some 1), (Col.u, some 2),
           (Col.h, some 3), (Col.s, some 4)] :=
  c7_exact_node csuph { T := 100, P := 1, v := 1, u := 2, h := 3, s := 4 }
    (by decide) (by decide)

/-! ## Concrete pipeline evaluations used by the remaining witnesses -/

/-- The (100, 1) node evaluation of the fixture, for reuse. -/
lemma suph_TP_node_A :
    csuph.TPBilinear (some 100) (some 1) =
      .ok [(Col.T, some 100), (Col.P, some 1), (Col.v, some 1), (Col.u, some 2),
           (Col.h, some 3), (Col.s, some 4)] :=
  TPBilinear_exact_node csuph { T := 100, P := 1, v := 1, u := 2, h := 3, s := 4 }
    (by decide) (by decide)

/-- The (200, 1) node evaluation of the fixture, for reuse. -/
lemma suph_TP_node_B :
    csuph.TPBilinear (some 200) (some 1) =
      .ok [(Col.T, some 200), (Col.P, some 1), (Col.v, some 5), (Col.u, some 6),
           (Col.h, some 7), (Col.s, some 8)] :=
  TPBilinear_exact_node csuph { T := 200, P := 1, v := 5, u := 6, h := 7, s := 8 }
    (by decide) (by decide)

set_option maxRecDepth 10000 in
/-- Resolving `stA` on the fixtures: T = 100 is outside the saturation
range, so the superheated grid is used and the (100, 1) node fills in the
derived properties. -/
lemma lookup_stA : State.lookup csatd csuph csubc stA = .ok stAres := by
  unfold State.lookup
  rw [if_neg (by decide)]
  unfold State.resolve
  simp only [show State.get_statespec stA.vars = .ok [Fld.T, Fld.P] from rfl, exc_bind_ok]
  simp only [show State.check_saturation csatd stA.vars [Fld.T, Fld.P] = .ok false from rfl,
    exc_bind_ok, ite_bool_false]
  unfold State.resolve_unsatd
  rw [if_pos (by decide)]
  unfold State.resolve_at_T_and_P
  simp only [show getSlot stA.vars Fld.T = .ok (some 100) from rfl, exc_bind_ok]
  simp only [show getSlot stA.vars Fld.P = .ok (some 1) from rfl, exc_bind_ok]
  simp only [show chooseUnsatGrid csatd (some 100) (some 1) = .ok GridChoice.superheated
    from rfl, exc_bind_ok]
  simp only [suph_TP_node_A, exc_bind_ok]
  rfl

set_option maxRecDepth 10000 in
/-- Resolving `stB` on the fixtures. -/
lemma lookup_stB : State.lookup csatd csuph csubc stB = .ok stBres := by
  unfold State.lookup
  rw [if_neg (by decide)]
  unfold State.resolve
  simp only [show State.get_statespec stB.vars = .ok [Fld.T, Fld.P] from rfl, exc_bind_ok]
  simp only [show State.check_saturation csatd stB.vars [Fld.T, Fld.P] = .ok false from rfl,
    exc_bind_ok, ite_bool_false]
  unfold State.resolve_unsatd
  rw [if_pos (by decide)]
  unfold State.resolve_at_T_and_P
  simp only [show getSlot stB.vars Fld.T = .ok (some 200) from rfl, exc_bind_ok]
  simp only [show getSlot stB.vars Fld.P = .ok (some 1) from rfl, exc_bind_ok]
  simp only [show chooseUnsatGrid csatd (some 200) (some 1) = .ok GridChoice.superheated
    from rfl, exc_bind_ok]
  simp only [suph_TP_node_B, exc_bind_ok]
  rfl

/-! ## Claim C2 -/

/-- Claim C2 is false on the code: after resolving T = 100, P = 1
(first conjunct), assigning a new T clears only the `_cache` dictionary —
the derived slot v still holds its stale resolved value 1 (second
conjunct); and after re-specifying the two inputs T and P the state does
NOT re-resolve correctly: lookup now sees six set state variables and
raises the two-of-six specification error (third conjunct). -/
theorem c2_counterexample :
    State.lookup csatd csuph csubc stA = .ok stAres ∧
    (stAres.setattr Fld.T (some (some 150))).vars.v = some (some 1) ∧
    State.lookup csatd csuph csubc
        ((stAres.setattr Fld.T (some (some 150))).setattr Fld.P (some (some 2))) =
      .error "Exactly two state variables must be specified" := by
  refine ⟨lookup_stA, rfl, ?_⟩
  unfold State.lookup
  rw [if_neg (by decide)]
  unfold State.resolve
  rw [show State.get_statespec
      ((stAres.setattr Fld.T (some (some 150))).setattr Fld.P (some (some 2))).vars =
      .error "Exactly two state variables must be specified" from rfl,
    exc_bind_err, exc_bind_err]

/-- Claim C2, amended: assigning to any input-eligible slot empties the
`_cache` dictionary (so the next lookup re-runs resolution) while leaving
every other slot — including the previously derived properties — with its
old value; consequently, once a resolved state is mutated and two inputs
are re-specified, resolution fails the exactly-two-of-six specification
check instead of re-resolving (unless the stale slots are first reset to
None). -/
theorem c2_amended :
    (∀ (st : State) (f : Fld) (w : Slot),
        (st.setattr f w).cache = [] ∧
        ∀ g : Fld, g ≠ f → (st.setattr f w).vars.get g = st.vars.get g) ∧
    (∀ (satd : SaturatedSteamTables) (suph subc : UnsaturatedSteamTable) (st : State),
        st.vars.x = none → countSetStateVars st.vars ≠ 2 → "lookup" ∉ st.cache →
        State.lookup satd suph subc st =
          .error "Exactly two state variables must be specified") := by
  constructor
  · intro st f w
    refine ⟨rfl, ?_⟩
    intro g hg
    cases f <;> cases g <;> first | rfl | (exact absurd rfl hg)
  · intro satd suph subc st hx hcount hcache
    unfold countSetStateVars at hcount
    have hspec : State.get_statespec st.vars =
        .error "Exactly two state variables must be specified" := by
      unfold State.get_statespec
      simp only [hx]
      rw [if_pos hcount]
    have hres : State.resolve satd suph subc st =
        .error "Exactly two state variables must be specified" := by
      unfold State.resolve
      rw [hspec, exc_bind_err]
    unfold State.lookup
    rw [if_neg hcache, hres, exc_bind_err]

/-- Witness for `c2_amended` at the mutated fixture state. -/
theorem c2_amended_witness :
    ((stAres.setattr Fld.T (some (some 150))).cache = [] ∧
      ∀ g : Fld, g ≠ Fld.T →
        (stAres.setattr Fld.T (some (some 150))).vars.get g = stAres.vars.get g) ∧
    State.lookup csatd csuph csubc
        ((stAres.setattr Fld.T (some (some 150))).setattr Fld.P (some (some 2))) =
      .error "Exactly two state variables must be specified" :=
  ⟨c2_amended.1 stAres Fld.T (some (some 150)),
   c2_amended.2 csatd csuph csubc _ rfl (by decide) (by decide)⟩

/-! ## Claim C5 -/

/-- Claim C5: for a state specified by two non-T/P properties the resolver
tries both grids' `Bilinear` under exception catching and dispatches on the
two outcomes: exactly one success uses that result; two successes raise the
ambiguity error; no success raises the could-not-resolve error (Python
truthiness of a returned dictionary is its nonemptiness; every dictionary
the interpolators return carries at least its two input keys, whence the
nonemptiness hypotheses). -/
theorem c5_theta12_dispatch (subTry supTry : Option PropDict)
    (hsub : ∀ d, subTry = some d → d ≠ [])
    (hsup : ∀ d, supTry = some d → d ≠ []) :
    (∀ d, subTry = some d → supTry = none →
      theta12Dispatch subTry supTry = .ok d) ∧
    (∀ d, supTry = some d → subTry = none →
      theta12Dispatch subTry supTry = .ok d) ∧
    (subTry ≠ none → supTry ≠ none →
      theta12Dispatch subTry supTry =
        .error "Specified state is ambiguous between subcooled and superheated states") ∧
    (subTry = none → supTry = none →
      theta12Dispatch subTry supTry =
        .error "Specified state could not be resolved as either subcooled or superheated") := by
  refine ⟨?_, ?_, ?_, ?_⟩
  · intro d hd hn
    subst hd; subst hn
    have hne : d.isEmpty = false := by
      cases d with
      | nil => exact absurd rfl (hsub [] rfl)
      | cons e l => rfl
    simp [theta12Dispatch, hne]
  · intro d hd hn
    subst hd; subst hn
    have hne : d.isEmpty = false := by
      cases d with
      | nil => exact absurd rfl (hsup [] rfl)
      | cons e l => rfl
    simp [theta12Dispatch, hne]
  · intro hsubne hsupne
    cases hs1 : subTry with
    | none => exact absurd hs1 hsubne
    | some d1 =>
      cases hs2 : supTry with
      | none => exact absurd hs2 hsupne
      | some d2 =>
        have hne1 : d1.isEmpty = false := by
          cases d1 with
          | nil => exact absurd rfl (hsub [] hs1)
          | cons e l => rfl
        have hne2 : d2.isEmpty = false := by
          cases d2 with
          | nil => exact absurd rfl (hsup [] hs2)
          | cons e l => rfl
        simp [theta12Dispatch, hne1, hne2]
  · intro h1 h2
    subst h1; subst h2
    simp [theta12Dispatch]

/-- Witness for `c5_theta12_dispatch`: all four outcomes at concrete
dictionaries. -/
theorem c5_theta12_dispatch_witness :
    theta12Dispatch (some [(Col.v, some 1)]) none = .ok [(Col.v, some 1)] ∧
    theta12Dispatch none (some [(Col.u, some 2)]) = .ok [(Col.u, some 2)] ∧
    theta12Dispatch (some [(Col.v, some 1)]) (some [(Col.u, some 2)]) =
      .error "Specified state is ambiguous between subcooled and superheated states" ∧
    theta12Dispatch none none =
      .error "Specified state could not be resolved as either subcooled or superheated" := by
  refine ⟨?_, ?_, ?_, ?_⟩
  · exact (c5_theta12_dispatch (some [(Col.v, some 1)]) none
      (by intro d hd; cases hd; simp) (by intro d hd; cases hd)).1 _ rfl rfl
  · exact (c5_theta12_dispatch none (some [(Col.u, some 2)])
      (by intro d hd; cases hd) (by intro d hd; cases hd; simp)).2.1 _ rfl rfl
  · exact (c5_theta12_dispatch (some [(Col.v, some 1)]) (some [(Col.u, some 2)])
      (by intro d hd; cases hd; simp) (by intro d hd; cases hd; simp)).2.2.1
      (by simp) (by simp)
  · exact (c5_theta12_dispatch none none (by intro d hd; cases hd)
      (by intro d hd; cases hd)).2.2.2 rfl rfl

/-! ## Claim C8 -/

/-- Claim C8: a second `lookup()` without any intervening input change
returns the state unchanged and consults no table at all — the result of
the second call is independent of the table arguments (any saturation/grid
tables give the same answer), because the `'lookup'` cache key written by
the first call short-circuits resolution; this holds even though
resolution assigned the derived properties through the cache-clearing
setter, since the key is written only after `_resolve` returns. -/
theorem c8_lookup_cache_hit (satd : SaturatedSteamTables)
    (suph subc : UnsaturatedSteamTable) (st st' : State)
    (h : State.lookup satd suph subc st = .ok st') :
    ∀ (satd2 : SaturatedSteamTables) (suph2 subc2 : UnsaturatedSteamTable),
      State.lookup satd2 suph2 subc2 st' = .ok st' := by
  intro satd2 suph2 subc2
  have hmem : "lookup" ∈ st'.cache := by
    unfold State.lookup at h
    by_cases hc : "lookup" ∈ st.cache
    · rw [if_pos hc] at h
      cases h
      exact hc
    · rw [if_neg hc] at h
      cases hres : State.resolve satd suph subc st with
      | error e => rw [hres, exc_bind_err] at h; cases h
      | ok s =>
        rw [hres, exc_bind_ok] at h
        cases h
        exact List.mem_cons_self _ _
  unfold State.lookup
  rw [if_pos hmem]

/-- Witness for `c8_lookup_cache_hit`: after resolving `stA` on the
fixtures, looking the resolved state up again with EMPTY tables still
returns it unchanged — no interpolation can have been consulted. -/
theorem c8_lookup_cache_hit_witness :
    State.lookup { rows := [] } { data := [] } { data := [] } stAres = .ok stAres :=
  c8_lookup_cache_hit csatd csuph csubc stA stAres lookup_stA
    { rows := [] } { data := [] } { data := [] }

/-! ## Claim C9 -/

/-- Claim C9: for every pair of resolvable states, `delta` forces both
resolutions and returns, for each of the six state variables set
(non-None) in both post-resolution states, the signed difference `other`
minus `self`; consequently each entry of `a.delta(b)` is the negation of
the corresponding entry of `b.delta(a)` (including the `Pv` entry), and
the two states are not modified beyond their forced resolutions — the
post-states are exactly the lookup results. -/
theorem c9_delta_spec (satd : SaturatedSteamTables) (suph subc : UnsaturatedSteamTable)
    (a b a' b' : State)
    (ha : State.lookup satd suph subc a = .ok a')
    (hb : State.lookup satd suph subc b = .ok b')
    (hPa : a'.vars.P ≠ none) (hva : a'.vars.v ≠ none)
    (hPb : b'.vars.P ≠ none) (hvb : b'.vars.v ≠ none) :
    ∃ dab dba : DeltaOut,
      State.delta satd suph subc a b = .ok dab ∧
      State.delta satd suph subc b a = .ok dba ∧
      dab.selfPost = a' ∧ dab.otherPost = b' ∧
      dba.selfPost = b' ∧ dba.otherPost = a' ∧
      (∀ p ∈ stateVarOrderedFields,
        (a'.vars.get p).isSome → (b'.vars.get p).isSome →
        dab.props.lookup p =
          some (rvSub ((b'.vars.get p).getD none) ((a'.vars.get p).getD none))) ∧
      (∀ p : Fld, dba.props.lookup p = (dab.props.lookup p).map rvNeg) ∧
      dba.Pv = rvNeg dab.Pv := by
  obtain ⟨Pa, hPa'⟩ := Option.ne_none_iff_exists'.mp hPa
  obtain ⟨va, hva'⟩ := Option.ne_none_iff_exists'.mp hva
  obtain ⟨Pb, hPb'⟩ := Option.ne_none_iff_exists'.mp hPb
  obtain ⟨vb, hvb'⟩ := Option.ne_none_iff_exists'.mp hvb
  have hpva : State.Pv a'.vars = .ok (rvMul (rvMul (some 1000) Pa) va) := by
    unfold State.Pv getSlot
    simp only [StateVars.get, hPa', hva', exc_bind_ok, exc_pure]
  have hpvb : State.Pv b'.vars = .ok (rvMul (rvMul (some 1000) Pb) vb) := by
    unfold State.Pv getSlot
    simp only [StateVars.get, hPb', hvb', exc_bind_ok, exc_pure]
  refine ⟨{ selfPost := a', otherPost := b',
            props := (stateVarOrderedFields.filter (fun p =>
              (a'.vars.get p).isSome && (b'.vars.get p).isSome)).map
              (fun p => (p, rvSub ((b'.vars.get p).getD none) ((a'.vars.get p).getD none))),
            Pv := rvSub (rvMul (rvMul (some 1000) Pb) vb) (rvMul (rvMul (some 1000) Pa) va) },
          { selfPost := b', otherPost := a',
            props := (stateVarOrderedFields.filter (fun p =>
              (b'.vars.get p).isSome && (a'.vars.get p).isSome)).map
              (fun p => (p, rvSub ((a'.vars.get p).getD none) ((b'.vars.get p).getD none))),
            Pv := rvSub (rvMul (rvMul (some 1000) Pa) va) (rvMul (rvMul (some 1000) Pb) vb) },
          ?_, ?_, rfl, rfl, rfl, rfl, ?_, ?_, ?_⟩
  · unfold State.delta
    rw [ha, exc_bind_ok, hb, exc_bind_ok, hpva, exc_bind_ok, hpvb, exc_bind_ok]
    rfl
  · unfold State.delta
    rw [hb, exc_bind_ok, ha, exc_bind_ok, hpvb, exc_bind_ok, hpva, exc_bind_ok]
    rfl
  · intro p hp hA hB
    rw [lookup_map_filter]
    rw [if_pos (List.mem_filter.mpr ⟨hp, by rw [hA, hB]; rfl⟩)]
  · intro p
    rw [lookup_map_filter, lookup_map_filter]
    by_cases hmem : p ∈ stateVarOrderedFields ∧
        ((a'.vars.get p).isSome && (b'.vars.get p).isSome) = true
    · have hm1 : p ∈ stateVarOrderedFields.filter (fun p =>
          (a'.vars.get p).isSome && (b'.vars.get p).isSome) :=
        List.mem_filter.mpr ⟨hmem.1, hmem.2⟩
      have hm2 : p ∈ stateVarOrderedFields.filter (fun p =>
          (b'.vars.get p).isSome && (a'.vars.get p).isSome) :=
        List.mem_filter.mpr ⟨hmem.1, by rw [Bool.and_comm]; exact hmem.2⟩
      rw [if_pos hm2, if_pos hm1, Option.map_some']
      rw [rvNeg_rvSub]
    · have hm1 : p ∉ stateVarOrderedFields.filter (fun p =>
          (a'.vars.get p).isSome && (b'.vars.get p).isSome) := by
        intro hc
        exact hmem ⟨(List.mem_filter.mp hc).1, (List.mem_filter.mp hc).2⟩
      have hm2 : p ∉ stateVarOrderedFields.filter (fun p =>
          (b'.vars.get p).isSome && (a'.vars.get p).isSome) := by
        intro hc
        refine hmem ⟨(List.mem_filter.mp hc).1, ?_⟩
        rw [Bool.and_comm]
        exact (List.mem_filter.mp hc).2
      rw [if_neg hm2, if_neg hm1, Option.map_none']
  · rw [rvNeg_rvSub]

/-- Witness for `c9_delta_spec` at the two resolvable fixture states. -/
theorem c9_delta_spec_witness :
    ∃ dab dba : DeltaOut,
      State.delta csatd csuph csubc stA stB = .ok dab ∧
      State.delta csatd csuph csubc stB stA = .ok dba ∧
      dab.selfPost = stAres ∧ dab.otherPost = stBres ∧
      dba.selfPost = stBres ∧ dba.otherPost = stAres ∧
      (∀ p ∈ stateVarOrderedFields,
        (stAres.vars.get p).isSome → (stBres.vars.get p).isSome →
        dab.props.lookup p =
          some (rvSub ((stBres.vars.get p).getD none) ((stAres.vars.get p).getD none))) ∧
      (∀ p : Fld, dba.props.lookup p = (dab.props.lookup p).map rvNeg) ∧
      dba.Pv = rvNeg dab.Pv :=
  c9_delta_spec csatd csuph csubc stA stB stAres stBres lookup_stA lookup_stB
    (by decide) (by decide) (by decide) (by decide)
